import Mathlib

namespace AICube

/-!
# Verification of the AICUBE secure-messaging core

Shallow embedding of the protocol core of the `aicube_secure_ai_messaging_framework`
repository: `src/securemessaging/utils/crypto_utils.py` (class `AICUBECryptoManager`),
`src/securemessaging/agent/crypto_handler.py` (class `CryptoHandler`), and
`src/securemessaging/agent/base_agent.py` (class `SecureAgent`).

Modelling conventions:
* Byte strings are `List Nat` (one entry per byte).  All protocol constants and all
  output of Python's `json.dumps` (with its default `ensure_ascii=True`) are ASCII,
  so one character corresponds to one byte.
* The third-party cryptographic primitives (AES-256-GCM, RSA-OAEP, HMAC-SHA256,
  ECDSA, SHA-256) are not source code of this repository; they are modelled
  symbolically as perfect primitives: ciphertexts, tags, key-wraps, MACs, digests
  and signatures are constructor terms, and the corresponding inverse operations
  succeed exactly on matching terms.  Base64 transport encoding is a bijection and
  is absorbed into the field types.
* PEM key material is modelled by `PubKeyBytes` / `PrivKeyBytes`: a PEM blob carries
  the algorithm kind (RSA or EC) and a key-pair identifier; `load_pem_*` succeeds
  only on actual PEM values, and operations that require a particular key algebra
  (OAEP encrypt/decrypt needs RSA, ECDSA signing needs EC, point coordinates `x`/`y`
  exist only on EC keys) fail on the other kind, as the `cryptography` library does.
* Python exceptions are explicit `Except`/error values; `try/except` blocks become
  matches on those values.  Randomness (`secrets.token_bytes`, key generation, time)
  is passed in as explicit parameters.
-/

/-- Byte strings, one `Nat` per byte. -/
abbrev Bytes := List Nat

/-- UTF-8 bytes of an ASCII string (all strings occurring in the protocol are ASCII). -/
def strToBytes (s : String) : Bytes := s.data.map Char.toNat

/-- `AICUBECryptoManager.NEURAL_SIGNATURE_PATTERN = b"AICUBE_NEURAL_0x4A1C7B3E9F2D8A56"`. -/
def NEURAL_SIGNATURE_PATTERN : Bytes := strToBytes "AICUBE_NEURAL_0x4A1C7B3E9F2D8A56"

/-- Key algorithm kind carried by a PEM blob. -/
inductive KeyKind where
  | rsa
  | ec
deriving DecidableEq, Repr

/-- Public key material as bytes.  `pem kind kid` is a SubjectPublicKeyInfo PEM for
key pair `kid`; `b64pem` is the base64 text of such a PEM (as produced by
`CryptoHandler.get_public_key_hex`), which is *not* itself valid PEM; `raw` is any
other byte string. -/
inductive PubKeyBytes where
  | pem (kind : KeyKind) (kid : Nat)
  | b64pem (kind : KeyKind) (kid : Nat)
  | raw (s : String)
deriving DecidableEq, Repr

/-- Private key material as bytes.  `pem kind kid` is a PKCS8 PEM; `shielded kind kid`
is `QUANTUM_SHIELD_HEADER ++ pem kind kid` (as produced by
`AICUBECryptoManager.generate_rsa_keypair`, which prepends the header); `raw` is any
other byte string. -/
inductive PrivKeyBytes where
  | pem (kind : KeyKind) (kid : Nat)
  | shielded (kind : KeyKind) (kid : Nat)
  | raw (s : String)
deriving DecidableEq, Repr

/-- `cryptography.hazmat...serialization.load_pem_public_key`: succeeds only on PEM
input, returning the key (kind and pair id). -/
def load_pem_public_key : PubKeyBytes → Option (KeyKind × Nat)
  | .pem kind kid => some (kind, kid)
  | _ => none

/-- `serialization.load_pem_private_key(..., password=None)`: succeeds only on PEM
input.  A `shielded` blob still carries the quantum-shield header, so it is not
valid PEM and fails to load (callers strip the header first). -/
def load_pem_private_key : PrivKeyBytes → Option (KeyKind × Nat)
  | .pem kind kid => some (kind, kid)
  | _ => none

/-- `if private_key_pem.startswith(self.QUANTUM_SHIELD_HEADER): private_key_pem =
private_key_pem[len(self.QUANTUM_SHIELD_HEADER):]` — strip the AICUBE quantum-shield
header if present (used by `decrypt_message` and `sign_message`). -/
def stripQuantumShield : PrivKeyBytes → PrivKeyBytes
  | .shielded kind kid => .pem kind kid
  | p => p

/-- `AICUBECryptoManager.generate_rsa_keypair`: fresh RSA pair `kid`; the private PEM
gets the quantum-shield header prepended, the public PEM does not. -/
def generate_rsa_keypair (kid : Nat) : PrivKeyBytes × PubKeyBytes :=
  (.shielded .rsa kid, .pem .rsa kid)

/-- `AICUBECryptoManager.generate_ecdsa_keypair`: fresh SECP256K1 pair `kid`, both
sides plain PEM. -/
def generate_ecdsa_keypair (kid : Nat) : PrivKeyBytes × PubKeyBytes :=
  (.pem .ec kid, .pem .ec kid)

/-- Symbolic AES-256-GCM ciphertext: encryption of `pt` under symmetric key `key`
and 96-bit nonce `iv`. -/
inductive AesCt where
  | enc (key iv : Nat) (pt : Bytes)
deriving DecidableEq, Repr

/-- Symbolic AES-GCM authentication tag for the same encryption operation. -/
inductive GcmTag where
  | tag (key iv : Nat) (pt : Bytes)
deriving DecidableEq, Repr

/-- Symbolic RSA-OAEP wrap of symmetric key `key` under the public key of pair
`kid`. -/
inductive Wrapped where
  | oaep (kid : Nat) (key : Nat)
deriving DecidableEq, Repr

/-- Symbolic HMAC-SHA256 of an AES ciphertext under key `key`. -/
inductive HmacVal where
  | mac (key : Nat) (data : AesCt)
deriving DecidableEq, Repr

/-- Symbolic SHA-256 digest of a byte string (`hash_message`, `_store_off_chain`). -/
inductive HashVal where
  | sha256 (b : Bytes)
deriving DecidableEq, Repr

/-- Symbolic ECDSA signature (the base64 text is absorbed): signature over `msg`
by the private key of pair `kid`. -/
inductive Sig where
  | ecdsa (kid : Nat) (msg : Bytes)
deriving DecidableEq, Repr

/-- Python exception values surfaced by the embedded code.  `alreadyRegisteredError`
is the error named by the specification's registration contract; it is included so
that the spec claim about duplicate registration can be stated (no code in this
repository ever raises it). -/
inductive PyErr where
  | valueError (msg : String)
  | attributeError
  | keyError (key : String)
  | typeError
  | invalidTag
  | alreadyRegisteredError
deriving DecidableEq, Repr

/-- The dict returned by `AICUBECryptoManager.encrypt_message` (base64 transport
encoding of each field absorbed into the symbolic field types). -/
structure EncryptedData where
  ciphertext : AesCt
  iv : Nat
  tag : GcmTag
  encrypted_aes_key : Wrapped
  hmac : HmacVal
  encrypted_hmac_key : Wrapped
  aicube_signature : String
deriving DecidableEq, Repr

/-- `AICUBECryptoManager.encrypt_message(message, public_key_pem)`.  The fresh
values drawn from `secrets.token_bytes` (`aes_key`, 12-byte `iv`, `hmac_key`) are
explicit parameters.  The neural-signature pattern is prepended to the plaintext
before symmetric encryption; the AES key and the HMAC key are each OAEP-wrapped
under the recipient's RSA public key.  Loading a non-PEM public key raises, and an
EC public key has no `.encrypt` method, so both fail. -/
def encrypt_message (message : Bytes) (public_key_pem : PubKeyBytes)
    (aes_key iv hmac_key : Nat) : Except PyErr EncryptedData :=
  let enhanced_message := NEURAL_SIGNATURE_PATTERN ++ message
  match load_pem_public_key public_key_pem with
  | none => .error (.valueError "Unable to load PEM public key")
  | some (.ec, _) => .error .attributeError
  | some (.rsa, kid) =>
    let ciphertext := AesCt.enc aes_key iv enhanced_message
    .ok { ciphertext := ciphertext
          iv := iv
          tag := GcmTag.tag aes_key iv enhanced_message
          encrypted_aes_key := Wrapped.oaep kid aes_key
          hmac := HmacVal.mac hmac_key ciphertext
          encrypted_hmac_key := Wrapped.oaep kid hmac_key
          aicube_signature := "neural_enhanced" }

/-- Steps of `decrypt_message`, recorded in execution order so that the order of
the integrity check relative to symmetric decryption is observable. -/
inductive DecStep where
  | loadKey
  | unwrapAesKey
  | unwrapHmacKey
  | verifyHmac
  | aesDecrypt
  | checkNeuralSig
deriving DecidableEq, Repr

/-- `AICUBECryptoManager.decrypt_message(encrypted_data, private_key_pem)`,
instrumented with the list of steps performed before returning.  Order follows the
source: strip the quantum-shield header, load the private key, OAEP-unwrap the AES
key, OAEP-unwrap the HMAC key, recompute and compare the HMAC over the ciphertext
(raising `ValueError("Message integrity verification failed")` on mismatch), AES-GCM
decrypt, then require and strip the neural-signature prefix. -/
def decryptMessageT (encrypted_data : EncryptedData) (private_key_pem : PrivKeyBytes) :
    List DecStep × Except PyErr Bytes :=
  let priv := stripQuantumShield private_key_pem
  match load_pem_private_key priv with
  | none => ([.loadKey], .error (.valueError "Could not deserialize key data"))
  | some (.ec, _) => ([.loadKey, .unwrapAesKey], .error .attributeError)
  | some (.rsa, kid) =>
    match encrypted_data.encrypted_aes_key with
    | .oaep wkid aes_key =>
      if wkid ≠ kid then
        ([.loadKey, .unwrapAesKey], .error (.valueError "Decryption failed"))
      else
        match encrypted_data.encrypted_hmac_key with
        | .oaep hkid hmac_key =>
          if hkid ≠ kid then
            ([.loadKey, .unwrapAesKey, .unwrapHmacKey],
             .error (.valueError "Decryption failed"))
          else if HmacVal.mac hmac_key encrypted_data.ciphertext ≠ encrypted_data.hmac then
            ([.loadKey, .unwrapAesKey, .unwrapHmacKey, .verifyHmac],
             .error (.valueError "Message integrity verification failed"))
          else
            match encrypted_data.ciphertext with
            | .enc ckey civ pt =>
              if ckey = aes_key ∧ civ = encrypted_data.iv ∧
                  encrypted_data.tag = GcmTag.tag ckey civ pt then
                if NEURAL_SIGNATURE_PATTERN.isPrefixOf pt then
                  ([.loadKey, .unwrapAesKey, .unwrapHmacKey, .verifyHmac, .aesDecrypt,
                    .checkNeuralSig],
                   .ok (pt.drop NEURAL_SIGNATURE_PATTERN.length))
                else
                  ([.loadKey, .unwrapAesKey, .unwrapHmacKey, .verifyHmac, .aesDecrypt,
                    .checkNeuralSig],
                   .error (.valueError "AICUBE Neural Signature verification failed"))
              else
                ([.loadKey, .unwrapAesKey, .unwrapHmacKey, .verifyHmac, .aesDecrypt],
                 .error .invalidTag)

/-- `AICUBECryptoManager.decrypt_message`: result without the instrumentation. -/
def decrypt_message (encrypted_data : EncryptedData) (private_key_pem : PrivKeyBytes) :
    Except PyErr Bytes :=
  (decryptMessageT encrypted_data private_key_pem).2

/-- `AICUBECryptoManager.sign_message(message, private_key_pem)`: strip the
quantum-shield header, load the PEM, ECDSA-sign.  An RSA private key object cannot
sign with `ec.ECDSA`, so only EC keys succeed. -/
def sign_message (message : Bytes) (private_key_pem : PrivKeyBytes) :
    Except PyErr Sig :=
  let priv := stripQuantumShield private_key_pem
  match load_pem_private_key priv with
  | none => .error (.valueError "Could not deserialize key data")
  | some (.rsa, _) => .error .typeError
  | some (.ec, kid) => .ok (Sig.ecdsa kid message)

/-- `AICUBECryptoManager.verify_signature(message, signature, public_key_pem)`:
returns `True` exactly when the public key loads, is an EC key, and the signature is
the ECDSA signature of exactly `message` under the matching private key; every
exception path returns `False`. -/
def verify_signature (message : Bytes) (signature : Sig) (public_key_pem : PubKeyBytes) :
    Bool :=
  match load_pem_public_key public_key_pem with
  | some (.ec, kid) => signature = Sig.ecdsa kid message
  | _ => false

/-- Injective symbolic rendering of the Ethereum-style address derived for EC key
pair `kid` ("0x" plus the low 40 hex digits of the sha3-256 of the raw point
coordinates; the digest is abstracted to an injective rendering). -/
def addrOf (kid : Nat) : String := "0xec" ++ toString kid

/-- `AICUBECryptoManager.generate_address_from_public_key(public_key_pem)`: load the
PEM, read `public_numbers().x` / `.y`, hash and hex-encode.  `RSAPublicNumbers` has
no `x`/`y` attributes, so an RSA public key raises `AttributeError`; a non-PEM blob
fails to load. -/
def generate_address_from_public_key (public_key_pem : PubKeyBytes) :
    Except PyErr String :=
  match load_pem_public_key public_key_pem with
  | none => .error (.valueError "Unable to load PEM public key")
  | some (.rsa, _) => .error .attributeError
  | some (.ec, kid) => .ok (addrOf kid)

/-- Injective byte rendering of public key material (the PEM text), used as the
input of `hash_message` in `register`. -/
def pubKeyRawBytes : PubKeyBytes → Bytes
  | .pem .rsa kid => strToBytes "PEM_PUB_RSA_" ++ [kid]
  | .pem .ec kid => strToBytes "PEM_PUB_EC_" ++ [kid]
  | .b64pem .rsa kid => strToBytes "B64_PUB_RSA_" ++ [kid]
  | .b64pem .ec kid => strToBytes "B64_PUB_EC_" ++ [kid]
  | .raw s => strToBytes s

/-- `AICUBECryptoManager.hash_message`: SHA-256 hex digest, symbolic. -/
def hash_message (message : Bytes) : HashVal := HashVal.sha256 message

/-- `CryptoHandler.get_public_key_hex`: base64 text of the public PEM, as a string
(injective symbolic rendering). -/
def get_public_key_hex : PubKeyBytes → String
  | .pem .rsa kid => "b64pem:rsa:" ++ toString kid
  | .pem .ec kid => "b64pem:ec:" ++ toString kid
  | .b64pem .rsa kid => "b64b64:rsa:" ++ toString kid
  | .b64pem .ec kid => "b64b64:ec:" ++ toString kid
  | .raw s => "b64raw:" ++ s

/-!
## JSON values and `json.dumps`

Python dicts appearing in the protocol are association lists in insertion order.
`Json` has extra leaves for the protocol's opaque string values: an embedded base64
ECDSA signature (`sig`), an embedded hex SHA-256 digest (`hashv`), and the
`encrypted_payload` sub-dict (`encBlock`).  `dumpsB` mirrors `json.dumps` with its
default separators `", "` / `": "` and `ensure_ascii=True` (so the rendering is
ASCII and one character is one byte); `sortJson` applies `sort_keys=True`
recursively.  The opaque leaves render as quoted stand-in text of the length the
real base64/hex text has; their rendered content is abstracted, which affects no
claim (only lengths and field structure are observed).
-/

mutual
inductive Json where
  | str (s : String)
  | num (n : Int)
  | bool (b : Bool)
  | null
  | arr (xs : JsonList)
  | obj (fs : JsonFields)
  | sig (s : Sig)
  | hashv (h : HashVal)
  | encBlock (e : EncryptedData)
inductive JsonList where
  | nil
  | cons (x : Json) (xs : JsonList)
inductive JsonFields where
  | nil
  | cons (k : String) (v : Json) (fs : JsonFields)
end

/-- Lowercase hex digit, as Python's `\uXXXX` escapes use. -/
def hexDigit (n : Nat) : Nat := if n < 10 then 48 + n else 87 + n

/-- A `\uXXXX` escape for code unit `n`. -/
def u16Escape (n : Nat) : Bytes :=
  [92, 117, hexDigit (n / 4096 % 16), hexDigit (n / 256 % 16),
   hexDigit (n / 16 % 16), hexDigit (n % 16)]

/-- Escaping of one character inside a JSON string literal, per `json.dumps` with
`ensure_ascii=True`: the two-character escapes for `"`/`\`/control characters with
short forms, `\uXXXX` for other control and all non-ASCII characters (surrogate
pairs above the BMP). -/
def escapeChar (c : Char) : Bytes :=
  let n := c.toNat
  if n = 34 then [92, 34]
  else if n = 92 then [92, 92]
  else if n = 8 then [92, 98]
  else if n = 9 then [92, 116]
  else if n = 10 then [92, 110]
  else if n = 12 then [92, 102]
  else if n = 13 then [92, 114]
  else if n < 32 then u16Escape n
  else if n < 128 then [n]
  else if n < 65536 then u16Escape n
  else u16Escape (55296 + (n - 65536) / 1024) ++ u16Escape (56320 + (n - 65536) % 1024)

/-- A JSON string literal: quotes around the escaped characters. -/
def quoteStr (s : String) : Bytes := [34] ++ (s.data.map escapeChar).flatten ++ [34]

/-- Length of the base64 text of `n` bytes. -/
def b64len (n : Nat) : Nat := 4 * ((n + 2) / 3)

/-- Quoted stand-in text of length `len`, rendered with byte `c`. -/
def standIn (c len : Nat) : Bytes := [34] ++ List.replicate len c ++ [34]

/-- Rendered length of the `encrypted_payload` sub-dict produced by
`encrypt_message`: base64 field lengths follow the real byte sizes (ciphertext as
long as the enhanced plaintext, 12-byte IV, 16-byte GCM tag, 256-byte RSA-2048 OAEP
wraps, 32-byte HMAC), in dict insertion order. -/
def encBlockBytes (e : EncryptedData) : Bytes :=
  let ptLen := match e.ciphertext with | .enc _ _ pt => pt.length
  [123] ++
  quoteStr "ciphertext" ++ [58, 32] ++ standIn 67 (b64len ptLen) ++ [44, 32] ++
  quoteStr "iv" ++ [58, 32] ++ standIn 73 (b64len 12) ++ [44, 32] ++
  quoteStr "tag" ++ [58, 32] ++ standIn 84 (b64len 16) ++ [44, 32] ++
  quoteStr "encrypted_aes_key" ++ [58, 32] ++ standIn 75 (b64len 256) ++ [44, 32] ++
  quoteStr "hmac" ++ [58, 32] ++ standIn 72 (b64len 32) ++ [44, 32] ++
  quoteStr "encrypted_hmac_key" ++ [58, 32] ++ standIn 76 (b64len 256) ++ [44, 32] ++
  quoteStr "aicube_signature" ++ [58, 32] ++ quoteStr e.aicube_signature ++
  [125]

mutual
/-- `json.dumps` with default separators, serializing in the given field order
(`sort_keys=False`).  Opaque leaves render as quoted stand-ins: 96 characters for a
base64 ECDSA signature, 64 for a hex SHA-256 digest. -/
def dumpsB : Json → Bytes
  | .str s => quoteStr s
  | .num n => strToBytes (toString n)
  | .bool b => strToBytes (if b then "true" else "false")
  | .null => strToBytes "null"
  | .arr xs => [91] ++ dumpsList xs ++ [93]
  | .obj fs => [123] ++ dumpsFields fs ++ [125]
  | .sig _ => standIn 83 96
  | .hashv _ => standIn 104 64
  | .encBlock e => encBlockBytes e
def dumpsList : JsonList → Bytes
  | .nil => []
  | .cons x .nil => dumpsB x
  | .cons x (.cons y ys) => dumpsB x ++ [44, 32] ++ dumpsList (.cons y ys)
def dumpsFields : JsonFields → Bytes
  | .nil => []
  | .cons k v .nil => quoteStr k ++ [58, 32] ++ dumpsB v
  | .cons k v (.cons k' v' fs) =>
    quoteStr k ++ [58, 32] ++ dumpsB v ++ [44, 32] ++ dumpsFields (.cons k' v' fs)
end

/-- Lexicographic code-point comparison of character lists. -/
def charListLt : List Char → List Char → Bool
  | [], [] => false
  | [], _ :: _ => true
  | _ :: _, [] => false
  | a :: as, b :: bs =>
    if a.toNat < b.toNat then true
    else if b.toNat < a.toNat then false
    else charListLt as bs

/-- Python string comparison (lexicographic on code points), as `sorted` uses. -/
def strLt (a b : String) : Bool := charListLt a.data b.data

/-- Python's `str.startswith`: prefix test on code points. -/
def pyStartsWith (s pre : String) : Bool := pre.data.isPrefixOf s.data

/-- Stable insertion of a field into a key-sorted field list (insert after equal
keys), matching Python's stable `sorted` by key. -/
def insertField (k : String) (v : Json) : JsonFields → JsonFields
  | .nil => .cons k v .nil
  | .cons k' v' fs =>
    if strLt k k' then .cons k v (.cons k' v' fs)
    else .cons k' v' (insertField k v fs)

/-- Insertion sort of a field list by key. -/
def sortFields : JsonFields → JsonFields
  | .nil => .nil
  | .cons k v fs => insertField k v (sortFields fs)

mutual
/-- The recursive key-sorting performed by `json.dumps(..., sort_keys=True)`,
expressed as a tree transformation (the `encrypted_payload` leaf renders in a fixed
field order; its internal order affects neither lengths nor any claim). -/
def sortJson : Json → Json
  | .arr xs => .arr (sortJsonList xs)
  | .obj fs => .obj (sortFields (sortJsonFields fs))
  | x => x
def sortJsonList : JsonList → JsonList
  | .nil => .nil
  | .cons x xs => .cons (sortJson x) (sortJsonList xs)
def sortJsonFields : JsonFields → JsonFields
  | .nil => .nil
  | .cons k v fs => .cons k (sortJson v) (sortJsonFields fs)
end

/-- `json.dumps(j, sort_keys=sort)` as bytes (`.encode()` of the ASCII text). -/
def dumps (sort : Bool) (j : Json) : Bytes :=
  if sort then dumpsB (sortJson j) else dumpsB j

/-- Append of field lists (adding keys at the end of a Python dict). -/
def JsonFields.append : JsonFields → JsonFields → JsonFields
  | .nil, gs => gs
  | .cons k v fs, gs => .cons k v (fs.append gs)

/-- Dict key lookup (`d[k]` / `d.get(k)`); realizable raw messages have unique
keys, where this is exactly Python's lookup. -/
def JsonFields.lookup (k : String) : JsonFields → Option Json
  | .nil => none
  | .cons k' v fs => if k = k' then some v else JsonFields.lookup k fs

/-- Removal of a key (`d.pop(k)`'s mutation; on unique-key dicts this is exactly
Python's behaviour). -/
def JsonFields.removeKey (k : String) : JsonFields → JsonFields
  | .nil => .nil
  | .cons k' v fs =>
    if k = k' then JsonFields.removeKey k fs else .cons k' v (JsonFields.removeKey k fs)

/-- `self.identity` as stored by `SecureAgent.register` (`AgentIdentity` dataclass;
the registration timestamp is irrelevant to every claim and omitted). -/
structure AgentIdentity where
  address : String
  public_key : PubKeyBytes
  did_document : Bytes
  role : String
deriving DecidableEq, Repr

/-- The protocol-relevant mutable state of a `SecureAgent` and its `CryptoHandler`:
identity, address, the four key slots (`_private_key_pem`, `_public_key_pem`,
`_ecdsa_private_key`, `_ecdsa_public_key`), the agent's neural-signature string and
quantum-shield flag. -/
structure AgentState where
  name : String
  role : String
  identity : Option AgentIdentity
  address : Option String
  rsaPriv : Option PrivKeyBytes
  rsaPub : Option PubKeyBytes
  ecdsaPriv : Option PrivKeyBytes
  ecdsaPub : Option PubKeyBytes
  neuralSig : String
  quantumShield : Bool
deriving DecidableEq, Repr

/-- The dict `blockchain_client.get_agent_info` resolves an address to (only the
fields the agent reads). -/
structure AgentInfo where
  public_key : PubKeyBytes
  is_active : Bool
deriving DecidableEq, Repr

/-- `CryptoHandler.sign_message`: requires initialized ECDSA keys, prepends the
AICUBE neural-signature pattern to the message, then ECDSA-signs. -/
def handlerSignMessage (st : AgentState) (message : Bytes) : Except PyErr Sig :=
  match st.ecdsaPriv with
  | none => .error (.valueError "Keys not initialized")
  | some k => sign_message (NEURAL_SIGNATURE_PATTERN ++ message) k

/-- `None`-valued `self.address` serializes as JSON `null`. -/
def jsonOfOptStr : Option String → Json
  | none => .null
  | some s => .str s

/-- The values `send_message` draws from its environment: the message id (from
`time.time()`), the ISO timestamp, and the symmetric-key randomness consumed by
`encrypt_message`. -/
structure SendEnv where
  msgId : String
  timestamp : String
  aesKey : Nat
  iv : Nat
  hmacKey : Nat
deriving DecidableEq, Repr

/-- Everything `send_message` produces: the returned message id, the arguments of
the `blockchain_client.send_message` call (recipient, message hash, optional IPFS
hash, metadata), and — as instrumentation for stating size-dispatch properties —
the complete signed envelope. -/
structure SendResult where
  messageId : String
  txRecipient : String
  messageHash : HashVal
  ipfsHash : Option HashVal
  metadata : Json
  envelope : Json

/-- `SecureAgent.send_message(recipient, payload, encrypt, priority)`.
Mirrors the source step by step: registered check; recipient lookup result check;
envelope dict in insertion order (`id`, `from`, `to`, `payload`, `timestamp`,
`priority`, `neural_signature`, `quantum_protected`); optional hybrid encryption of
`json.dumps(payload).encode()` under the recipient's `public_key` (appending
`encrypted_payload` and `encryption`); signing of the canonical
(`sort_keys=True`) serialization via `CryptoHandler.sign_message`; appending the
signature; then the size dispatch on `len(json.dumps(message_data)) > 1024` —
off-chain storage (`_store_off_chain` = SHA-256 of the `sort_keys=True` dump)
with a seven-field digest payload, or the full envelope inline. -/
def send_message (st : AgentState) (recipient : String) (recipientInfo : Option AgentInfo)
    (payload : Json) (encrypt : Bool) (priority : String) (env : SendEnv) :
    Except PyErr SendResult :=
  match st.identity with
  | none => .error (.valueError "Agent must be registered before sending messages")
  | some _ =>
    match recipientInfo with
    | none => .error (.valueError ("Recipient " ++ recipient ++ " not found or inactive"))
    | some info =>
      if ¬ info.is_active then
        .error (.valueError ("Recipient " ++ recipient ++ " not found or inactive"))
      else
        let message_data : JsonFields :=
          .cons "id" (.str env.msgId) (.cons "from" (jsonOfOptStr st.address)
            (.cons "to" (.str recipient) (.cons "payload" payload
              (.cons "timestamp" (.str env.timestamp) (.cons "priority" (.str priority)
                (.cons "neural_signature" (.str st.neuralSig)
                  (.cons "quantum_protected" (.bool st.quantumShield) .nil)))))))
        let withEncE : Except PyErr JsonFields :=
          if encrypt then
            match encrypt_message (dumps false payload) info.public_key
                env.aesKey env.iv env.hmacKey with
            | .error e => .error e
            | .ok ed =>
              .ok (message_data.append
                    (.cons "encrypted_payload" (.encBlock ed)
                      (.cons "encryption" (.str "aes-256-gcm") .nil)))
          else .ok message_data
        match withEncE with
        | .error e => .error e
        | .ok fields =>
          let message_bytes := dumps true (.obj fields)
          match handlerSignMessage st message_bytes with
          | .error e => .error e
          | .ok signature =>
            let signedFields := fields.append (.cons "signature" (.sig signature) .nil)
            let envelope := Json.obj signedFields
            let message_hash := hash_message message_bytes
            if 1024 < (dumps false envelope).length then
              let ipfs_hash := hash_message (dumps true envelope)
              let blockchain_payload : Json := .obj
                (.cons "id" (.str env.msgId) (.cons "from" (jsonOfOptStr st.address)
                  (.cons "to" (.str recipient) (.cons "ipfs_hash" (.hashv ipfs_hash)
                    (.cons "message_hash" (.hashv message_hash)
                      (.cons "timestamp" (.str env.timestamp)
                        (.cons "neural_signature" (.str st.neuralSig) .nil)))))))
              .ok { messageId := env.msgId, txRecipient := recipient
                    messageHash := message_hash, ipfsHash := some ipfs_hash
                    metadata := blockchain_payload, envelope := envelope }
            else
              .ok { messageId := env.msgId, txRecipient := recipient
                    messageHash := message_hash, ipfsHash := none
                    metadata := envelope, envelope := envelope }

/-- `SecureAgent._verify_message_signature(message, sender_public_key)`: pop the
`signature` entry (mutating the dict), re-serialize the remainder with
`sort_keys=True`, and verify with `crypto_manager.verify_signature` (note: without
the neural-signature prefix that `CryptoHandler.sign_message` adds).  A missing
`signature` key raises `KeyError` before mutation, which the function's `except`
turns into `False`.  Returns the verdict together with the (possibly mutated)
dict. -/
def verifyMessageSignature (message : JsonFields) (sender_public_key : PubKeyBytes) :
    Bool × JsonFields :=
  match message.lookup "signature" with
  | none => (false, message)
  | some sval =>
    let rest := message.removeKey "signature"
    let message_bytes := dumps true (.obj rest)
    match sval with
    | .sig s => (verify_signature message_bytes s sender_public_key, rest)
    | _ => (false, rest)

/-!
## `json.loads` (used on decrypted payload bytes)

A fuel-bounded recursive-descent parser over the decoded characters.  Only the
fragment of JSON values the protocol can produce is modelled (in particular,
numbers are integers; a float literal fails to parse, which like any other parse
failure surfaces as an exception and is caught by the receive loop).
-/

/-- JSON whitespace. -/
def jsonWs (c : Char) : Bool := c = ' ' || c = '\n' || c = '\t' || c = '\r'

/-- Skip leading whitespace. -/
def skipWs : List Char → List Char
  | c :: cs => if jsonWs c then skipWs cs else c :: cs
  | [] => []

/-- Hex digit value. -/
def hexVal (c : Char) : Option Nat :=
  if '0' ≤ c ∧ c ≤ '9' then some (c.toNat - 48)
  else if 'a' ≤ c ∧ c ≤ 'f' then some (c.toNat - 87)
  else if 'A' ≤ c ∧ c ≤ 'F' then some (c.toNat - 55)
  else none

/-- Parse the body of a JSON string literal after the opening quote. -/
def parseStringBody : Nat → List Char → Option (List Char × List Char)
  | 0, _ => none
  | _, [] => none
  | fuel + 1, c :: cs =>
    if c = '"' then some ([], cs)
    else if c = '\\' then
      match cs with
      | [] => none
      | e :: cs' =>
        let simple : Option Char :=
          if e = '"' then some '"' else if e = '\\' then some '\\'
          else if e = '/' then some '/' else if e = 'b' then some (Char.ofNat 8)
          else if e = 'f' then some (Char.ofNat 12) else if e = 'n' then some '\n'
          else if e = 'r' then some '\r' else if e = 't' then some '\t' else none
        match simple with
        | some d =>
          match parseStringBody fuel cs' with
          | some (body, rest) => some (d :: body, rest)
          | none => none
        | none =>
          if e = 'u' then
            match cs' with
            | a :: b :: c' :: d :: cs'' =>
              match hexVal a, hexVal b, hexVal c', hexVal d with
              | some ha, some hb, some hc, some hd =>
                match parseStringBody fuel cs'' with
                | some (body, rest) =>
                  some (Char.ofNat (ha * 4096 + hb * 256 + hc * 16 + hd) :: body, rest)
                | none => none
              | _, _, _, _ => none
            | _ => none
          else none
    else
      match parseStringBody fuel cs with
      | some (body, rest) => some (c :: body, rest)
      | none => none

/-- Parse a run of decimal digits. -/
def parseDigits : Nat → List Char → (List Char × List Char)
  | 0, cs => ([], cs)
  | fuel + 1, c :: cs =>
    if '0' ≤ c ∧ c ≤ '9' then
      let (ds, rest) := parseDigits fuel cs
      (c :: ds, rest)
    else ([], c :: cs)
  | _, [] => ([], [])

/-- Digits to a natural number. -/
def digitsToNat (ds : List Char) : Nat := ds.foldl (fun a c => a * 10 + (c.toNat - 48)) 0

mutual
/-- Parse one JSON value. -/
def parseValue : Nat → List Char → Option (Json × List Char)
  | 0, _ => none
  | fuel + 1, cs =>
    match skipWs cs with
    | [] => none
    | c :: cs' =>
      if c = '{' then
        match skipWs cs' with
        | '}' :: rest => some (.obj .nil, rest)
        | cs'' =>
          match parseMembers fuel cs'' with
          | some (fs, rest) => some (.obj fs, rest)
          | none => none
      else if c = '[' then
        match skipWs cs' with
        | ']' :: rest => some (.arr .nil, rest)
        | cs'' =>
          match parseElements fuel cs'' with
          | some (xs, rest) => some (.arr xs, rest)
          | none => none
      else if c = '"' then
        match parseStringBody (cs'.length + 1) cs' with
        | some (body, rest) => some (.str (String.mk body), rest)
        | none => none
      else if c = 't' then
        match cs' with
        | 'r' :: 'u' :: 'e' :: rest => some (.bool true, rest)
        | _ => none
      else if c = 'f' then
        match cs' with
        | 'a' :: 'l' :: 's' :: 'e' :: rest => some (.bool false, rest)
        | _ => none
      else if c = 'n' then
        match cs' with
        | 'u' :: 'l' :: 'l' :: rest => some (.null, rest)
        | _ => none
      else if c = '-' then
        match parseDigits (cs'.length + 1) cs' with
        | ([], _) => none
        | (ds, rest) =>
          match rest with
          | r :: _ => if r = '.' ∨ r = 'e' ∨ r = 'E' then none
                      else some (.num (-(digitsToNat ds : Int)), rest)
          | [] => some (.num (-(digitsToNat ds : Int)), [])
      else if '0' ≤ c ∧ c ≤ '9' then
        match parseDigits (cs'.length + 1) (c :: cs') with
        | (ds, rest) =>
          match rest with
          | r :: _ => if r = '.' ∨ r = 'e' ∨ r = 'E' then none
                      else some (.num (digitsToNat ds : Int), rest)
          | [] => some (.num (digitsToNat ds : Int), [])
      else none

/-- Parse `"key": value (, "key": value)*` then the closing brace. -/
def parseMembers : Nat → List Char → Option (JsonFields × List Char)
  | 0, _ => none
  | fuel + 1, cs =>
    match skipWs cs with
    | '"' :: cs' =>
      match parseStringBody (cs'.length + 1) cs' with
      | some (key, afterKey) =>
        match skipWs afterKey with
        | ':' :: afterColon =>
          match parseValue fuel afterColon with
          | some (v, afterVal) =>
            match skipWs afterVal with
            | ',' :: afterComma =>
              match parseMembers fuel afterComma with
              | some (fs, rest) => some (.cons (String.mk key) v fs, rest)
              | none => none
            | '}' :: rest => some (.cons (String.mk key) v .nil, rest)
            | _ => none
          | none => none
        | _ => none
      | none => none
    | _ => none

/-- Parse `value (, value)*` then the closing bracket. -/
def parseElements : Nat → List Char → Option (JsonList × List Char)
  | 0, _ => none
  | fuel + 1, cs =>
    match parseValue fuel cs with
    | some (v, afterVal) =>
      match skipWs afterVal with
      | ',' :: afterComma =>
        match parseElements fuel afterComma with
        | some (xs, rest) => some (.cons v xs, rest)
        | none => none
      | ']' :: rest => some (.cons v .nil, rest)
      | _ => none
    | none => none
end

/-- `bytes.decode()`: the model covers ASCII content (all content this protocol
produces); non-ASCII bytes fail, as an invalid UTF-8 sequence would. -/
def bytesDecode (b : Bytes) : Option (List Char) :=
  if b.all (· < 128) then some (b.map Char.ofNat) else none

/-- `json.loads(b.decode())`: decode, parse one value, require only trailing
whitespace. -/
def loads (b : Bytes) : Option Json :=
  match bytesDecode b with
  | none => none
  | some cs =>
    match parseValue (cs.length + 1) cs with
    | some (v, rest) => if skipWs rest = [] then some v else none
    | none => none

/-- The `Message` dataclass record yielded by `receive_messages` (field types as
the runtime actually produces them: dict values are arbitrary JSON values, the
timestamp is the ISO string fed to `datetime.fromisoformat`, whose format
validation is abstracted). -/
structure Msg where
  id : Json
  sender : Json
  recipient : Json
  payload : Json
  timestamp : String
  signature : Json
  encrypted : Bool
  neural_signature : String

/-- Construction of the `Message` record at the end of the receive-loop body,
with dict accesses evaluated in keyword order (`id`, `sender`, `recipient`,
`payload`, `timestamp`, `signature`); a missing key raises `KeyError`, a non-string
timestamp raises in `datetime.fromisoformat`.  Note that `raw'` is the dict *after*
`_verify_message_signature` popped the `signature` entry. -/
def buildMsg (raw' : JsonFields) (payload : Json) (ns : String) :
    Except PyErr (Option Msg) :=
  match raw'.lookup "id" with
  | none => .error (.keyError "id")
  | some idv =>
    match raw'.lookup "from" with
    | none => .error (.keyError "from")
    | some sv =>
      match raw'.lookup "to" with
      | none => .error (.keyError "to")
      | some tv =>
        match raw'.lookup "timestamp" with
        | none => .error (.keyError "timestamp")
        | some (.str ts) =>
          match raw'.lookup "signature" with
          | none => .error (.keyError "signature")
          | some sigv =>
            .ok (some { id := idv, sender := sv, recipient := tv, payload := payload
                        timestamp := ts, signature := sigv
                        encrypted := (raw'.lookup "encrypted_payload").isSome
                        neural_signature := ns })
        | some _ => .error .typeError

/-- The payload-resolution step of the receive-loop body: if the envelope carries
an `encrypted_payload`, decrypt it with the agent's RSA private key
(`CryptoHandler.get_private_key`) and `json.loads` the plaintext; otherwise read
the inline `payload` entry.  Every failure is the exception the corresponding
Python operation raises. -/
def resolvePayload (st : AgentState) (raw' : JsonFields) : Except PyErr Json :=
  match raw'.lookup "encrypted_payload" with
  | some (.encBlock ed) =>
    match st.rsaPriv with
    | none => .error (.valueError "Keys not initialized")
    | some priv =>
      match decrypt_message ed priv with
      | .error e => .error e
      | .ok pt =>
        match loads pt with
        | none => .error (.valueError "json.loads failed")
        | some p => .ok p
  | some _ => .error .typeError
  | none =>
    match raw'.lookup "payload" with
    | none => .error (.keyError "payload")
    | some p => .ok p

/-- The body of the `async for` loop in `SecureAgent.receive_messages`, i.e. the
inner `try` block processing one raw envelope: resolve the sender via
`get_agent_info` (warn and continue when unknown — `.ok none`); verify the
signature via `_verify_message_signature` (warn and continue on failure); resolve
the payload; then check
`raw_message.get("neural_signature", "").startswith("AICUBE_AGENT_")` and either
build and yield the `Message` record or warn and continue.  `.error e` is any
exception raised in the body (caught by the loop's inner `except`). -/
def processOneE (st : AgentState) (getInfo : Json → Option AgentInfo)
    (raw : JsonFields) : Except PyErr (Option Msg) :=
  match raw.lookup "from" with
  | none => .error (.keyError "from")
  | some fromVal =>
    match getInfo fromVal with
    | none => .ok none
    | some senderInfo =>
      match verifyMessageSignature raw senderInfo.public_key with
      | (false, _) => .ok none
      | (true, raw') =>
        match resolvePayload st raw' with
        | .error e => .error e
        | .ok payload =>
          match raw'.lookup "neural_signature" with
          | some (.str s) =>
            if pyStartsWith s "AICUBE_AGENT_" then buildMsg raw' payload s
            else .ok none
          | some _ => .error .attributeError
          | none => .ok none

/-- The `async for` loop of `receive_messages` over the stream of raw envelopes:
each envelope is processed by the inner `try` body; an exception there is caught
by the inner `except`, logged, and the loop continues with the next envelope. -/
def receiveLoop (st : AgentState) (getInfo : Json → Option AgentInfo) :
    List JsonFields → List Msg
  | [] => []
  | raw :: rest =>
    match processOneE st getInfo raw with
    | .ok (some m) => m :: receiveLoop st getInfo rest
    | .ok none => receiveLoop st getInfo rest
    | .error _ => receiveLoop st getInfo rest

/-- `SecureAgent.receive_messages`: requires a registered agent, then yields the
records the loop produces for the (finite prefix of the) incoming stream.
Failures of the stream itself belong to the blockchain collaborator and are out of
scope; per-message processing cannot escape the inner `except`. -/
def receive_messages (st : AgentState) (getInfo : Json → Option AgentInfo)
    (stream : List JsonFields) : Except PyErr (List Msg) :=
  match st.identity with
  | none => .error (.valueError "Agent must be registered before receiving messages")
  | some _ => .ok (receiveLoop st getInfo stream)

/-- `CryptoHandler.has_keys`. -/
def has_keys (st : AgentState) : Bool :=
  st.rsaPriv.isSome && st.rsaPub.isSome && st.ecdsaPriv.isSome && st.ecdsaPub.isSome

/-- The fresh key-pair identifiers consumed by `CryptoHandler.generate_keys`. -/
structure KeyGenOut where
  rsaId : Nat
  ecId : Nat
deriving DecidableEq, Repr

/-- `CryptoHandler.generate_keys`: regenerate all four key slots (RSA pair for
encryption, ECDSA pair for signatures); key persistence to disk is out of scope. -/
def generate_keys (st : AgentState) (fresh : KeyGenOut) : AgentState :=
  { st with rsaPriv := some (generate_rsa_keypair fresh.rsaId).1
            rsaPub := some (generate_rsa_keypair fresh.rsaId).2
            ecdsaPriv := some (generate_ecdsa_keypair fresh.ecId).1
            ecdsaPub := some (generate_ecdsa_keypair fresh.ecId).2 }

/-- The arguments of the `blockchain_client.register_agent` call. -/
structure RegisterCall where
  public_key_hash : HashVal
  did_document : Bytes
  signature : Sig
deriving DecidableEq, Repr

/-- `SecureAgent.register()`.  Mirrors the source: generate keys when absent;
derive the address from the RSA encryption public key (`get_public_key`) —
assignment to `self.address` happens only if the derivation returns; build the DID
document (insertion order `id`, `name`, `role`, `publicKey`, `created`,
`neural_signature`, `quantum_shield`, `aicube_version`); sign its `sort_keys=True`
serialization with `CryptoHandler.sign_message`; submit
`register_agent(public_key_hash, did_document, signature)` where `did_document` is
the unsorted dump; on success store the identity.  The `ledger` parameter is the
collaborator call; the returned triple is (result, post-state, whether the ledger
call was made).  Exceptions propagate (`except ... raise`), leaving whatever state
was already mutated. -/
def register (st : AgentState) (fresh : KeyGenOut) (now : String)
    (ledger : RegisterCall → Except PyErr String) :
    Except PyErr String × AgentState × Bool :=
  let st1 := if has_keys st then st else generate_keys st fresh
  match st1.rsaPub with
  | none => (.error (.valueError "Keys not initialized"), st1, false)
  | some public_key =>
    match generate_address_from_public_key public_key with
    | .error e => (.error e, st1, false)
    | .ok addr =>
      let st2 := { st1 with address := some addr }
      let didFields : JsonFields :=
        .cons "id" (.str ("did:aicube:" ++ addr)) (.cons "name" (.str st.name)
          (.cons "role" (.str st.role)
            (.cons "publicKey" (.str (get_public_key_hex public_key))
              (.cons "created" (.str now)
                (.cons "neural_signature" (.str st.neuralSig)
                  (.cons "quantum_shield" (.bool st.quantumShield)
                    (.cons "aicube_version" (.str "2.0.0") .nil)))))))
      let did_bytes := dumps true (.obj didFields)
      match handlerSignMessage st2 did_bytes with
      | .error e => (.error e, st2, false)
      | .ok signature =>
        match ledger { public_key_hash := hash_message (pubKeyRawBytes public_key)
                       did_document := dumps false (.obj didFields)
                       signature := signature } with
        | .error e => (.error e, st2, true)
        | .ok tx_hash =>
          let idn : AgentIdentity :=
            { address := addr, public_key := public_key
              did_document := dumps false (.obj didFields), role := st.role }
          (.ok tx_hash, { st2 with identity := some idn }, true)

/-- The spec's `IntegrityError`: the `ValueError("Message integrity verification
failed")` raised on a keyed-hash mismatch. -/
def isIntegrityError (e : PyErr) : Prop :=
  e = .valueError "Message integrity verification failed"

/-- The spec's `DecryptionError`: a failed asymmetric unwrap (OAEP `ValueError`),
a failed AEAD tag check (`InvalidTag`), or unloadable key material. -/
def isDecryptionError (e : PyErr) : Prop :=
  e = .valueError "Decryption failed" ∨ e = .invalidTag ∨
    e = .valueError "Could not deserialize key data"

/-- Concrete receiver agent used by the scenario theorems below. -/
def agentB : AgentState :=
  ⟨"B", "agent", some ⟨"0xec2", .pem .rsa 2, [], "agent"⟩, some "0xec2",
   some (.shielded .rsa 2), some (.pem .rsa 2), some (.pem .ec 22), some (.pem .ec 22),
   "AICUBE_AGENT_B_NEURAL_0x00000002", true⟩

/-- The envelope does not carry the AICUBE neural-signature tag: its
`neural_signature` entry is absent, not a string, or a string that does not start
with `"AICUBE_AGENT_"` (the receive loop's authenticity test). -/
def lacksNeuralTag (raw : JsonFields) : Prop :=
  match raw.lookup "neural_signature" with
  | some (.str s) => ¬ pyStartsWith s "AICUBE_AGENT_"
  | some _ => True
  | none => True

/-- The unsigned part of a concrete third-party envelope without the AICUBE tag. -/
def c8ForeignBase : JsonFields :=
  .cons "id" (.str "m1") (.cons "from" (.str "0xccc") (.cons "to" (.str "0xec2")
    (.cons "payload" (.obj (.cons "hello" (.num 1) .nil))
      (.cons "timestamp" (.str "2025-01-01T00:00:00")
        (.cons "neural_signature" (.str "FOREIGN_AGENT_X") .nil)))))

/-- The same envelope carrying a signature over exactly the canonical form the
receiver reconstructs, so that `_verify_message_signature` returns `True`. -/
def c8ForeignRaw : JsonFields :=
  c8ForeignBase.append
    (.cons "signature" (.sig (.ecdsa 9 (dumps true (.obj c8ForeignBase)))) .nil)

/-- Identity lookup that resolves the foreign sender to its EC verification key. -/
def c8GetInfo : Json → Option AgentInfo := fun a =>
  match a with
  | .str "0xccc" => some ⟨.pem .ec 9, true⟩
  | _ => none

/-- Concrete sender agent A (registered, with the key material `register` would
use: RSA pair 1 for encryption, ECDSA pair 11 for signing). -/
def agentA : AgentState :=
  ⟨"A", "agent", some ⟨"0xec1", .pem .rsa 1, [], "agent"⟩, some "0xec1",
   some (.shielded .rsa 1), some (.pem .rsa 1), some (.pem .ec 11), some (.pem .ec 11),
   "AICUBE_AGENT_A_NEURAL_0x00000001", true⟩

/-- Recipient lookup for B as seen by the sender, with the most favorable key
material: B's actual RSA public PEM (a real ledger client would hand back the
base64 text from the DID document, which fails even earlier). -/
def infoB : AgentInfo := ⟨.pem .rsa 2, true⟩

/-- Environment values for A's send. -/
def sendEnvA : SendEnv := ⟨"msg_1700000000000000", "2025-01-01T00:00:00.000000", 5, 6, 7⟩

/-- Sender lookup for B's receive loop, with the most favorable key material: A's
actual ECDSA verification key. -/
def c1GetInfo : Json → Option AgentInfo := fun a =>
  match a with
  | .str "0xec1" => some ⟨.pem .ec 11, true⟩
  | _ => none

/-- Fields of an envelope object. -/
def envelopeFields : Json → JsonFields
  | .obj fs => fs
  | _ => .nil

/-- An agent state as `CryptoHandler._load_existing_keys` can produce it: the key
files on disk hold an EC PEM in the two RSA slots (nothing checks the algorithm),
which is the only way `generate_address_from_public_key` can succeed during
`register` — with keys as `generate_keys` creates them the RSA public key makes
address derivation raise `AttributeError` before the ledger call. -/
def agentDisk : AgentState :=
  ⟨"D", "agent", none, none, some (.pem .ec 3), some (.pem .ec 3),
   some (.pem .ec 11), some (.pem .ec 11), "AICUBE_AGENT_D_NEURAL_0x0000000D", true⟩

/-- A ledger collaborator that accepts the registration. -/
def ledgerOk : RegisterCall → Except PyErr String := fun _ => .ok "0xtx1"

/-- A ledger collaborator whose submission fails. -/
def ledgerFail : RegisterCall → Except PyErr String := fun _ =>
  .error (.valueError "tx failed")

/-- Rendered length of one `"key": value` entry. -/
def entryLen (k : String) (v : Json) : Nat :=
  (quoteStr k).length + 2 + (dumpsB v).length

/-- Length contribution of the remaining entries (separator plus rendering). -/
def restLen : JsonFields → Nat
  | .nil => 0
  | .cons k v fs => 2 + (dumpsFields (.cons k v fs)).length

/-- Filler payload making the signed envelope's canonical form exactly 1024
bytes. -/
def c3FillInline : String := String.mk (List.replicate 686 'a')

/-- Filler payload making the signed envelope's canonical form exactly 1025
bytes. -/
def c3FillOff : String := String.mk (List.replicate 687 'a')

/-- A concrete send whose envelope is exactly at the threshold. -/
def c3SendInline : Except PyErr SendResult :=
  send_message agentA "0xec2" (some infoB) (.str c3FillInline) false "normal" sendEnvA

/-- A concrete send whose envelope is one byte over the threshold. -/
def c3SendOff : Except PyErr SendResult :=
  send_message agentA "0xec2" (some infoB) (.str c3FillOff) false "normal" sendEnvA

set_option maxRecDepth 100000 in
/-- The result of the threshold send. -/
def c3ResInline : SendResult := (c3SendInline.toOption).get (by rfl)

set_option maxRecDepth 100000 in
/-- The result of the over-threshold send. -/
def c3ResOff : SendResult := (c3SendOff.toOption).get (by rfl)

/-- C2.  Hybrid-cipher round trip: for every plaintext `P`, every key pair
`(priv, pub) = generate_rsa_keypair kid`, and every draw of symmetric randomness,
`decrypt_message (encrypt_message P pub) priv` returns exactly `P`. -/
theorem c2_hybrid_roundtrip (P : Bytes) (kid aesKey iv hmacKey : Nat)
    (ed : EncryptedData)
    (h : encrypt_message P (generate_rsa_keypair kid).2 aesKey iv hmacKey = .ok ed) :
    decrypt_message ed (generate_rsa_keypair kid).1 = .ok P := by
  simp only [encrypt_message, generate_rsa_keypair, load_pem_public_key,
    Except.ok.injEq] at h
  subst h
  simp [decrypt_message, decryptMessageT, generate_rsa_keypair, stripQuantumShield,
    load_pem_private_key, List.isPrefixOf_iff_prefix]

/-- Witness for C2 at a concrete plaintext and key pair. -/
theorem c2_hybrid_roundtrip_witness :
    decrypt_message
      { ciphertext := .enc 5 6 (NEURAL_SIGNATURE_PATTERN ++ [1, 2, 3]), iv := 6
        tag := .tag 5 6 (NEURAL_SIGNATURE_PATTERN ++ [1, 2, 3])
        encrypted_aes_key := .oaep 4 5
        hmac := .mac 7 (.enc 5 6 (NEURAL_SIGNATURE_PATTERN ++ [1, 2, 3]))
        encrypted_hmac_key := .oaep 4 7, aicube_signature := "neural_enhanced" }
      (generate_rsa_keypair 4).1 = .ok [1, 2, 3] :=
  c2_hybrid_roundtrip [1, 2, 3] 4 5 6 7 _ rfl

/-- C6.  Fail-closed integrity order: whenever the private key loads and both
wraps unwrap but the recomputed HMAC over the ciphertext differs from the stored
one, `decrypt_message` fails with the integrity `ValueError` and the symmetric
decryption step is never performed. -/
theorem c6_fail_closed_integrity (ed : EncryptedData) (priv : PrivKeyBytes)
    (kid aesK hmacK : Nat)
    (hload : load_pem_private_key (stripQuantumShield priv) = some (.rsa, kid))
    (haes : ed.encrypted_aes_key = .oaep kid aesK)
    (hhm : ed.encrypted_hmac_key = .oaep kid hmacK)
    (hmm : HmacVal.mac hmacK ed.ciphertext ≠ ed.hmac) :
    (decryptMessageT ed priv).2 =
        .error (.valueError "Message integrity verification failed")
    ∧ DecStep.aesDecrypt ∉ (decryptMessageT ed priv).1 := by
  simp only [decryptMessageT, hload, haes, hhm]
  simp [hmm]

/-- Witness for C6: a block whose stored HMAC does not match the ciphertext. -/
theorem c6_fail_closed_integrity_witness :
    (decryptMessageT
      { ciphertext := .enc 5 6 [1], iv := 6, tag := .tag 5 6 [1]
        encrypted_aes_key := .oaep 4 5, hmac := .mac 7 (.enc 5 6 [2])
        encrypted_hmac_key := .oaep 4 7, aicube_signature := "neural_enhanced" }
      (.pem .rsa 4)).2 =
        .error (.valueError "Message integrity verification failed")
    ∧ DecStep.aesDecrypt ∉ (decryptMessageT
      { ciphertext := .enc 5 6 [1], iv := 6, tag := .tag 5 6 [1]
        encrypted_aes_key := .oaep 4 5, hmac := .mac 7 (.enc 5 6 [2])
        encrypted_hmac_key := .oaep 4 7, aicube_signature := "neural_enhanced" }
      (.pem .rsa 4)).1 :=
  c6_fail_closed_integrity _ _ 4 5 7 rfl rfl rfl (by decide)

/-- C9.  Tamper detection: altering an honestly produced block's ciphertext,
wrapped AES key, or wrapped HMAC key (any change, in particular any single bit
flip) makes `decrypt_message` fail with an integrity or decryption error; it never
returns a plaintext. -/
theorem c9_tamper_detection (P : Bytes) (kid aesKey iv hmacKey : Nat)
    (ed : EncryptedData)
    (h : encrypt_message P (generate_rsa_keypair kid).2 aesKey iv hmacKey = .ok ed) :
    (∀ c', c' ≠ ed.ciphertext →
      ∃ e, decrypt_message { ed with ciphertext := c' } (generate_rsa_keypair kid).1
            = .error e ∧ (isIntegrityError e ∨ isDecryptionError e)) ∧
    (∀ w', w' ≠ ed.encrypted_aes_key →
      ∃ e, decrypt_message { ed with encrypted_aes_key := w' }
            (generate_rsa_keypair kid).1
            = .error e ∧ (isIntegrityError e ∨ isDecryptionError e)) ∧
    (∀ w', w' ≠ ed.encrypted_hmac_key →
      ∃ e, decrypt_message { ed with encrypted_hmac_key := w' }
            (generate_rsa_keypair kid).1
            = .error e ∧ (isIntegrityError e ∨ isDecryptionError e)) := by
  simp only [encrypt_message, generate_rsa_keypair, load_pem_public_key,
    Except.ok.injEq] at h
  subst h
  refine ⟨?_, ?_, ?_⟩
  · intro c' hc
    refine ⟨.valueError "Message integrity verification failed", ?_, Or.inl rfl⟩
    cases c' with
    | enc k' i' pt' =>
      simp only [decrypt_message, decryptMessageT, generate_rsa_keypair,
        stripQuantumShield, load_pem_private_key]
      have : HmacVal.mac hmacKey (AesCt.enc k' i' pt') ≠
          HmacVal.mac hmacKey (AesCt.enc aesKey iv (NEURAL_SIGNATURE_PATTERN ++ P)) := by
        intro hEq
        exact hc (by injection hEq)
      simp [this]
  · intro w' hw
    cases w' with
    | oaep wk k2 =>
      by_cases hwk : wk = kid
      · subst hwk
        have hk2 : k2 ≠ aesKey := by
          intro hEq; exact hw (by rw [hEq])
        have hk2' : aesKey ≠ k2 := fun hEq => hk2 hEq.symm
        refine ⟨.invalidTag, ?_, Or.inr (Or.inr (Or.inl rfl))⟩
        simp [decrypt_message, decryptMessageT, generate_rsa_keypair,
          stripQuantumShield, load_pem_private_key, hk2']
      · refine ⟨.valueError "Decryption failed", ?_, Or.inr (Or.inl rfl)⟩
        simp [decrypt_message, decryptMessageT, generate_rsa_keypair,
          stripQuantumShield, load_pem_private_key, hwk]
  · intro w' hw
    cases w' with
    | oaep wk k2 =>
      by_cases hwk : wk = kid
      · subst hwk
        have hk2 : k2 ≠ hmacKey := by
          intro hEq; exact hw (by rw [hEq])
        refine ⟨.valueError "Message integrity verification failed", ?_, Or.inl rfl⟩
        have : HmacVal.mac k2 (AesCt.enc aesKey iv (NEURAL_SIGNATURE_PATTERN ++ P)) ≠
            HmacVal.mac hmacKey (AesCt.enc aesKey iv (NEURAL_SIGNATURE_PATTERN ++ P)) := by
          intro hEq
          exact hk2 (by injection hEq)
        simp [decrypt_message, decryptMessageT, generate_rsa_keypair,
          stripQuantumShield, load_pem_private_key, this]
      · refine ⟨.valueError "Decryption failed", ?_, Or.inr (Or.inl rfl)⟩
        simp [decrypt_message, decryptMessageT, generate_rsa_keypair,
          stripQuantumShield, load_pem_private_key, hwk]

/-- Witness for C9: a concrete honest block, with one concrete tampering of each
of the three fields. -/
theorem c9_tamper_detection_witness :
    (∃ e, decrypt_message
      { ciphertext := .enc 5 6 [9], iv := 6
        tag := .tag 5 6 (NEURAL_SIGNATURE_PATTERN ++ [1])
        encrypted_aes_key := .oaep 4 5
        hmac := .mac 7 (.enc 5 6 (NEURAL_SIGNATURE_PATTERN ++ [1]))
        encrypted_hmac_key := .oaep 4 7, aicube_signature := "neural_enhanced" }
      (generate_rsa_keypair 4).1 = .error e
      ∧ (isIntegrityError e ∨ isDecryptionError e)) ∧
    (∃ e, decrypt_message
      { ciphertext := .enc 5 6 (NEURAL_SIGNATURE_PATTERN ++ [1]), iv := 6
        tag := .tag 5 6 (NEURAL_SIGNATURE_PATTERN ++ [1])
        encrypted_aes_key := .oaep 4 99
        hmac := .mac 7 (.enc 5 6 (NEURAL_SIGNATURE_PATTERN ++ [1]))
        encrypted_hmac_key := .oaep 4 7, aicube_signature := "neural_enhanced" }
      (generate_rsa_keypair 4).1 = .error e
      ∧ (isIntegrityError e ∨ isDecryptionError e)) ∧
    (∃ e, decrypt_message
      { ciphertext := .enc 5 6 (NEURAL_SIGNATURE_PATTERN ++ [1]), iv := 6
        tag := .tag 5 6 (NEURAL_SIGNATURE_PATTERN ++ [1])
        encrypted_aes_key := .oaep 4 5
        hmac := .mac 7 (.enc 5 6 (NEURAL_SIGNATURE_PATTERN ++ [1]))
        encrypted_hmac_key := .oaep 99 7, aicube_signature := "neural_enhanced" }
      (generate_rsa_keypair 4).1 = .error e
      ∧ (isIntegrityError e ∨ isDecryptionError e)) :=
  ⟨(c9_tamper_detection [1] 4 5 6 7 _ rfl).1 (.enc 5 6 [9]) (by decide),
   (c9_tamper_detection [1] 4 5 6 7 _ rfl).2.1 (.oaep 4 99) (by decide),
   (c9_tamper_detection [1] 4 5 6 7 _ rfl).2.2 (.oaep 99 7) (by decide)⟩

/-- C10.  Neural-signature prefix invariant of the hybrid cipher: a successful
`decrypt_message` implies the inner plaintext of the block is exactly the
neural-signature pattern followed by the returned bytes (so the prefix is required
and stripped), and a block whose inner plaintext lacks the prefix can never be
opened successfully. -/
theorem c10_neural_prefix_invariant (ed : EncryptedData) (priv : PrivKeyBytes) :
    (∀ m, decrypt_message ed priv = .ok m →
      ∃ k i, ed.ciphertext = .enc k i (NEURAL_SIGNATURE_PATTERN ++ m)) ∧
    (∀ k i pt, ed.ciphertext = .enc k i pt →
      ¬ NEURAL_SIGNATURE_PATTERN <+: pt →
      ∀ m, decrypt_message ed priv ≠ .ok m) := by
  have main : ∀ m, decrypt_message ed priv = .ok m →
      ∃ k i, ed.ciphertext = .enc k i (NEURAL_SIGNATURE_PATTERN ++ m) := by
    intro m hm
    simp only [decrypt_message, decryptMessageT] at hm
    cases hcc : ed.ciphertext with
    | enc ck ci cpt =>
      rw [hcc] at hm
      repeat' split at hm
      all_goals simp_all
      rename_i hpre
      rw [← hm]
      exact (List.prefix_iff_eq_append.mp hpre).symm
  refine ⟨main, ?_⟩
  intro k i pt hct hpre m hm
  obtain ⟨k', i', heq⟩ := main m hm
  rw [hct] at heq
  injection heq with h1 h2 h3
  exact hpre (h3 ▸ List.prefix_append _ _)

/-- Witness for C10: applying the invariant to a concrete successful decryption
and to a concrete block without the prefix. -/
theorem c10_neural_prefix_invariant_witness :
    (∃ k i, (AICube.EncryptedData.mk (.enc 5 6 (NEURAL_SIGNATURE_PATTERN ++ [1])) 6
        (.tag 5 6 (NEURAL_SIGNATURE_PATTERN ++ [1])) (.oaep 4 5)
        (.mac 7 (.enc 5 6 (NEURAL_SIGNATURE_PATTERN ++ [1]))) (.oaep 4 7)
        "neural_enhanced").ciphertext = .enc k i (NEURAL_SIGNATURE_PATTERN ++ [1])) ∧
    (∀ m, decrypt_message
      { ciphertext := .enc 5 6 [1], iv := 6, tag := .tag 5 6 [1]
        encrypted_aes_key := .oaep 4 5, hmac := .mac 7 (.enc 5 6 [1])
        encrypted_hmac_key := .oaep 4 7, aicube_signature := "neural_enhanced" }
      (.pem .rsa 4) ≠ .ok m) :=
  ⟨(c10_neural_prefix_invariant
      { ciphertext := .enc 5 6 (NEURAL_SIGNATURE_PATTERN ++ [1]), iv := 6
        tag := .tag 5 6 (NEURAL_SIGNATURE_PATTERN ++ [1])
        encrypted_aes_key := .oaep 4 5
        hmac := .mac 7 (.enc 5 6 (NEURAL_SIGNATURE_PATTERN ++ [1]))
        encrypted_hmac_key := .oaep 4 7, aicube_signature := "neural_enhanced" }
      (.pem .rsa 4)).1 [1] rfl,
   (c10_neural_prefix_invariant _ _).2 5 6 [1] rfl (by decide)⟩

/-- Key lookup is unaffected by removal of a different key. -/
theorem lookup_removeKey (k r : String) (h : k ≠ r) :
    ∀ fs : JsonFields, (fs.removeKey r).lookup k = fs.lookup k
  | .nil => rfl
  | .cons k'' v fs => by
    have ih := lookup_removeKey k r h fs
    simp only [JsonFields.removeKey]
    by_cases h1 : r = k''
    · subst h1
      rw [if_pos rfl, ih]
      simp only [JsonFields.lookup]
      rw [if_neg h]
    · rw [if_neg h1]
      simp only [JsonFields.lookup]
      by_cases h2 : k = k''
      · rw [if_pos h2, if_pos h2]
      · rw [if_neg h2, if_neg h2, ih]

/-- The dict handed back by `_verify_message_signature` agrees with the input on
every key other than the popped `signature`. -/
theorem verifyMessageSignature_snd_lookup (raw : JsonFields) (pk : PubKeyBytes)
    (k : String) (h : k ≠ "signature") :
    ((verifyMessageSignature raw pk).2).lookup k = raw.lookup k := by
  unfold verifyMessageSignature
  cases hl : raw.lookup "signature" with
  | none => rfl
  | some v => cases v <;> simp [lookup_removeKey _ _ h]

/-- C7.  Receive-loop resilience: when the agent is registered the receive loop
always completes with a list of records (no per-message failure escapes), and any
envelope whose processing does not yield a record — an explicit skip (unknown
sender, failed signature check, missing tag) or any exception (decryption or
integrity failure, malformed fields) — is simply dropped: the loop's result on
`m :: rest` equals its result on `rest`. -/
theorem c7_receive_loop_resilience (st : AgentState) (getInfo : Json → Option AgentInfo)
    (m : JsonFields) (rest stream : List JsonFields) (idn : AgentIdentity)
    (hreg : st.identity = some idn)
    (hfail : ∀ msg, processOneE st getInfo m ≠ .ok (some msg)) :
    (∃ l, receive_messages st getInfo stream = .ok l) ∧
    receiveLoop st getInfo (m :: rest) = receiveLoop st getInfo rest := by
  constructor
  · exact ⟨receiveLoop st getInfo stream, by simp [receive_messages, hreg]⟩
  · cases hp : processOneE st getInfo m with
    | ok o =>
      cases o with
      | some msg => exact absurd hp (hfail msg)
      | none => simp [receiveLoop, hp]
    | error e => simp [receiveLoop, hp]

/-- Witness for C7: a concrete inbound envelope from an unknown sender (the
identity-lookup collaborator knows nobody) is skipped and the loop result ignores
it. -/
theorem c7_receive_loop_resilience_witness :
    (∃ l, receive_messages agentB (fun _ => none)
      [JsonFields.cons "from" (.str "0xwho") .nil] = .ok l) ∧
    receiveLoop agentB (fun _ => none)
        [JsonFields.cons "from" (.str "0xwho") .nil] =
      receiveLoop agentB (fun _ => none) [] :=
  c7_receive_loop_resilience agentB (fun _ => none)
    (JsonFields.cons "from" (.str "0xwho") .nil) [] _ _ rfl
    (fun msg h => by
      rw [show processOneE agentB (fun _ => none)
          (JsonFields.cons "from" (.str "0xwho") .nil) = .ok none from rfl] at h
      exact Option.noConfusion (Except.ok.inj h))

/-- C8 (amended).  An inbound envelope that does not carry the AICUBE
neural-signature tag is never yielded by the receive loop — whether or not it
passes sender resolution and signature verification, it is logged and dropped, so
the loop result on `raw :: rest` equals the result on `rest`.  (No flagged
"non-authenticated" record exists.) -/
theorem c8_foreign_envelope_dropped (st : AgentState)
    (getInfo : Json → Option AgentInfo) (raw : JsonFields)
    (rest : List JsonFields) (htag : lacksNeuralTag raw) :
    receiveLoop st getInfo (raw :: rest) = receiveLoop st getInfo rest := by
  have hskip : ∀ msg, processOneE st getInfo raw ≠ .ok (some msg) := by
    intro msg h
    unfold processOneE at h
    cases hfrom : raw.lookup "from" with
    | none => simp only [hfrom] at h; exact Except.noConfusion h
    | some fromVal =>
      simp only [hfrom] at h
      cases hgi : getInfo fromVal with
      | none => simp only [hgi] at h; exact Option.noConfusion (Except.ok.inj h)
      | some info =>
        simp only [hgi] at h
        cases hv : verifyMessageSignature raw info.public_key with
        | mk ok raw' =>
          simp only [hv] at h
          cases ok with
          | false => simp only [] at h; exact Option.noConfusion (Except.ok.inj h)
          | true =>
            have hlk : raw'.lookup "neural_signature" = raw.lookup "neural_signature" := by
              have h2 := verifyMessageSignature_snd_lookup raw info.public_key
                "neural_signature" (by decide)
              rw [hv] at h2
              exact h2
            cases hpe : resolvePayload st raw' with
            | error e => simp only [hpe] at h; exact Except.noConfusion h
            | ok payload =>
              simp only [hpe, hlk] at h
              unfold lacksNeuralTag at htag
              cases hn : raw.lookup "neural_signature" with
              | none => simp only [hn] at h; exact Option.noConfusion (Except.ok.inj h)
              | some v =>
                simp only [hn] at h
                simp only [hn] at htag
                cases v
                case str sv =>
                  simp only [] at htag
                  simp [htag] at h
                all_goals simp at h
  cases hp : processOneE st getInfo raw with
  | ok o =>
    cases o with
    | some msg => exact absurd hp (hskip msg)
    | none => simp [receiveLoop, hp]
  | error e => simp [receiveLoop, hp]

/-- Counterexample to C8 as stated: a concrete envelope whose sender resolves and
whose signature verifies, but which lacks the AICUBE tag, produces *no* record —
the receive loop yields the empty list instead of a flagged record. -/
theorem c8_foreign_counterexample :
    (c8GetInfo (.str "0xccc")).isSome = true ∧
    (verifyMessageSignature c8ForeignRaw (.pem .ec 9)).1 = true ∧
    receive_messages agentB c8GetInfo [c8ForeignRaw] = .ok [] :=
  ⟨rfl, by decide, rfl⟩

/-- Witness for the amended C8 at the same concrete envelope. -/
theorem c8_foreign_envelope_dropped_witness :
    receiveLoop agentB c8GetInfo [c8ForeignRaw] = receiveLoop agentB c8GetInfo [] :=
  c8_foreign_envelope_dropped agentB c8GetInfo c8ForeignRaw []
    (show ¬ pyStartsWith "FOREIGN_AGENT_X" "AICUBE_AGENT_" = true by decide)

set_option maxRecDepth 8000 in
/-- C1.  End-to-end delivery fails: A (registered) sends `{"amount": 100}`
encrypted to B (registered, active); the send succeeds, yet B's receive loop —
even when handed the complete signed envelope and resolving A to A's true ECDSA
verification key — yields *no* record: `CryptoHandler.sign_message` signed
`NEURAL_SIGNATURE_PATTERN ++ canonical`, while `_verify_message_signature`
verifies the bare canonical bytes, so the signature check fails and the envelope
is skipped.  (Had it passed, the record construction would still raise `KeyError`
because `_verify_message_signature` popped the `signature` entry.) -/
theorem c1_end_to_end_delivery_fails :
    ∃ r, send_message agentA "0xec2" (some infoB)
        (.obj (.cons "amount" (.num 100) .nil)) true "normal" sendEnvA = .ok r ∧
      receive_messages agentB c1GetInfo [envelopeFields r.envelope] = .ok [] :=
  ⟨_, rfl, rfl⟩

/-- Counterexample to C4 as stated: an agent on which `register()` has completed
successfully (first conjunct), on a second `register()` call, does not fail with
`AlreadyRegisteredError` — the call completes again, returning a transaction
hash. -/
theorem c4_second_register_counterexample :
    (register agentDisk ⟨1, 11⟩ "t0" ledgerOk).1 = .ok "0xtx1" ∧
    ((register agentDisk ⟨1, 11⟩ "t0" ledgerOk).2.1.identity.isSome = true) ∧
    (register (register agentDisk ⟨1, 11⟩ "t0" ledgerOk).2.1 ⟨2, 12⟩ "t1"
        ledgerOk).1 = .ok "0xtx1" ∧
    (register (register agentDisk ⟨1, 11⟩ "t0" ledgerOk).2.1 ⟨2, 12⟩ "t1"
        ledgerOk).1 ≠ .error .alreadyRegisteredError := by
  refine ⟨rfl, rfl, rfl, ?_⟩
  have h1 : (register (register agentDisk ⟨1, 11⟩ "t0" ledgerOk).2.1 ⟨2, 12⟩ "t1"
      ledgerOk).1 = .ok "0xtx1" := rfl
  rw [h1]
  exact fun h => Except.noConfusion h

/-- Errors produced by address derivation are never the spec's
`AlreadyRegisteredError`. -/
theorem generate_address_error_ne_already (pub : PubKeyBytes) (e : PyErr)
    (h : generate_address_from_public_key pub = .error e) :
    e ≠ .alreadyRegisteredError := by
  cases pub with
  | pem kind kid =>
    cases kind <;>
      simp [generate_address_from_public_key, load_pem_public_key] at h <;>
      simp [← h]
  | b64pem kind kid =>
    simp [generate_address_from_public_key, load_pem_public_key] at h
    simp [← h]
  | raw s =>
    simp [generate_address_from_public_key, load_pem_public_key] at h
    simp [← h]

/-- Errors produced by ECDSA signing are never the spec's
`AlreadyRegisteredError`. -/
theorem sign_message_error_ne_already (m : Bytes) (p : PrivKeyBytes) (e : PyErr)
    (h : sign_message m p = .error e) : e ≠ .alreadyRegisteredError := by
  cases p with
  | pem kind kid =>
    cases kind <;>
      simp [sign_message, stripQuantumShield, load_pem_private_key] at h <;>
      simp [← h]
  | shielded kind kid =>
    cases kind <;>
      simp [sign_message, stripQuantumShield, load_pem_private_key] at h <;>
      simp [← h]
  | raw s =>
    simp [sign_message, stripQuantumShield, load_pem_private_key] at h
    simp [← h]

/-- C4 (amended).  `register()` has no duplicate-registration guard: provided the
ledger itself never reports `AlreadyRegisteredError`, no `register()` call — in
particular no second call on an already-registered agent — returns it; and on a
registered agent whose key material is loadable, a second call re-runs the whole
registration, invoking the ledger collaborator again. -/
theorem c4_register_no_duplicate_guard (st : AgentState) (fresh : KeyGenOut)
    (now : String) (ledger : RegisterCall → Except PyErr String) (idn : AgentIdentity)
    (k j : Nat)
    (hledger : ∀ c, ledger c ≠ .error .alreadyRegisteredError)
    (hid : st.identity = some idn)
    (hkeys : has_keys st = true)
    (hpub : st.rsaPub = some (.pem .ec k))
    (hpriv : st.ecdsaPriv = some (.pem .ec j)) :
    (register st fresh now ledger).1 ≠ .error .alreadyRegisteredError ∧
    (register st fresh now ledger).2.2 = true := by
  unfold register
  simp only [hkeys, if_true]
  rw [hpub]
  simp only [generate_address_from_public_key, load_pem_public_key,
    handlerSignMessage, hpriv, sign_message, stripQuantumShield,
    load_pem_private_key]
  cases hl : ledger { public_key_hash := hash_message (pubKeyRawBytes (.pem .ec k))
                      did_document := _
                      signature := _ } with
  | error e =>
    constructor
    · intro hc
      simp only [Except.error.injEq] at hc
      exact hledger _ (by rw [hl, hc])
    · rfl
  | ok tx => exact ⟨fun h => Except.noConfusion h, rfl⟩

/-- Witness for the amended C4 at the concrete registered agent. -/
theorem c4_register_no_duplicate_guard_witness :
    (register (register agentDisk ⟨1, 11⟩ "t0" ledgerOk).2.1 ⟨2, 12⟩ "t1"
        ledgerOk).1 ≠ .error .alreadyRegisteredError ∧
    (register (register agentDisk ⟨1, 11⟩ "t0" ledgerOk).2.1 ⟨2, 12⟩ "t1"
        ledgerOk).2.2 = true :=
  c4_register_no_duplicate_guard _ ⟨2, 12⟩ "t1" ledgerOk
    ⟨"0xec3", .pem .ec 3, dumps false (.obj _), "agent"⟩ 3 11
    (fun c h => Except.noConfusion h) rfl rfl rfl rfl

/-- Counterexample to C5 as stated: for the concrete agent `agentDisk` the
outbound ledger call made by `register()` fails, yet the post-state is not the
pre-state: `self.address` was already overwritten with the derived address before
the ledger call (the stored identity alone is unchanged). -/
theorem c5_register_not_atomic_counterexample :
    (register agentDisk ⟨1, 11⟩ "t0" ledgerFail).1 = .error (.valueError "tx failed") ∧
    (register agentDisk ⟨1, 11⟩ "t0" ledgerFail).2.2 = true ∧
    agentDisk.address = none ∧
    (register agentDisk ⟨1, 11⟩ "t0" ledgerFail).2.1.address = some "0xec3" ∧
    (register agentDisk ⟨1, 11⟩ "t0" ledgerFail).2.1.identity = agentDisk.identity :=
  ⟨rfl, rfl, rfl, rfl, rfl⟩

/-- C5 (amended).  When `register()` reaches the outbound ledger call (which
requires key material whose encryption public key is an EC PEM, e.g. loaded from
disk) and that call fails, the stored identity is unchanged, but the agent's
address field has already been overwritten with the derived address before the
call — the state is not rolled back. -/
theorem c5_register_failure_address_set (st : AgentState) (fresh : KeyGenOut)
    (now : String) (ledger : RegisterCall → Except PyErr String) (e : PyErr)
    (k j : Nat)
    (hkeys : has_keys st = true)
    (hpub : st.rsaPub = some (.pem .ec k))
    (hpriv : st.ecdsaPriv = some (.pem .ec j))
    (hfail : ∀ c, ledger c = .error e) :
    (register st fresh now ledger).1 = .error e ∧
    (register st fresh now ledger).2.2 = true ∧
    (register st fresh now ledger).2.1.identity = st.identity ∧
    (register st fresh now ledger).2.1.address = some (addrOf k) := by
  unfold register
  simp only [hkeys, if_true]
  rw [hpub]
  simp only [generate_address_from_public_key, load_pem_public_key,
    handlerSignMessage, hpriv, sign_message, stripQuantumShield,
    load_pem_private_key]
  rw [hfail]
  exact ⟨rfl, rfl, rfl, rfl⟩

/-- Witness for the amended C5 at the concrete agent and failing ledger. -/
theorem c5_register_failure_address_set_witness :
    (register agentDisk ⟨1, 11⟩ "t0" ledgerFail).1 = .error (.valueError "tx failed") ∧
    (register agentDisk ⟨1, 11⟩ "t0" ledgerFail).2.2 = true ∧
    (register agentDisk ⟨1, 11⟩ "t0" ledgerFail).2.1.identity = agentDisk.identity ∧
    (register agentDisk ⟨1, 11⟩ "t0" ledgerFail).2.1.address = some (addrOf 3) :=
  c5_register_failure_address_set agentDisk ⟨1, 11⟩ "t0" ledgerFail
    (.valueError "tx failed") 3 11 rfl rfl rfl (fun _ => rfl)

/-- Length of a rendered field list, first entry plus the rest. -/
theorem dumpsFields_cons_length (k : String) (v : Json) (fs : JsonFields) :
    (dumpsFields (.cons k v fs)).length = entryLen k v + restLen fs := by
  cases fs with
  | nil => simp [dumpsFields, entryLen, restLen]; omega
  | cons k' v' fs => simp [dumpsFields, entryLen, restLen]; omega

/-- Insertion always yields a nonempty field list. -/
theorem insertField_ne_nil (k : String) (v : Json) (fs : JsonFields) :
    ∃ a b l, insertField k v fs = .cons a b l := by
  cases fs with
  | nil => exact ⟨k, v, .nil, rfl⟩
  | cons k' v' fs =>
    simp only [insertField]
    by_cases h : strLt k k' = true
    · rw [if_pos h]; exact ⟨_, _, _, rfl⟩
    · rw [if_neg h]; exact ⟨_, _, _, rfl⟩

/-- `restLen` only depends on emptiness and rendered length. -/
theorem restLen_congr (fs gs : JsonFields)
    (hnil : fs = .nil ↔ gs = .nil)
    (hlen : (dumpsFields fs).length = (dumpsFields gs).length) :
    restLen fs = restLen gs := by
  cases fs with
  | nil => rw [hnil.mp rfl]
  | cons k v fs =>
    cases gs with
    | nil => exact absurd (hnil.mpr rfl) (by simp)
    | cons k' v' gs => simp only [restLen, hlen]

/-- Inserting an entry into a field list adds exactly the entry's rendered length
(plus one separator when the list is nonempty): the rendered length equals that of
simply prepending the entry. -/
theorem insertField_dumps_length (k : String) (v : Json) :
    ∀ fs : JsonFields,
      (dumpsFields (insertField k v fs)).length = (dumpsFields (.cons k v fs)).length
  | .nil => rfl
  | .cons k' v' fs => by
    have ih := insertField_dumps_length k v fs
    simp only [insertField]
    by_cases h : strLt k k' = true
    · rw [if_pos h]
    · rw [if_neg h]
      obtain ⟨a, b, l, hins⟩ := insertField_ne_nil k v fs
      rw [dumpsFields_cons_length k' v', dumpsFields_cons_length k v]
      have h1 : restLen (insertField k v fs) =
          2 + (dumpsFields (.cons k v fs)).length := by
        rw [hins]
        simp only [restLen]
        rw [← hins, ih]
      rw [h1]
      simp only [restLen]
      rw [dumpsFields_cons_length k v, dumpsFields_cons_length k' v']
      omega

/-- Key-sorting a field list preserves the rendered length. -/
theorem sortFields_dumps_length :
    ∀ fs : JsonFields,
      (dumpsFields (sortFields fs)).length = (dumpsFields fs).length
  | .nil => rfl
  | .cons k v fs => by
    have ih := sortFields_dumps_length fs
    simp only [sortFields]
    rw [insertField_dumps_length, dumpsFields_cons_length, dumpsFields_cons_length]
    have hnil : sortFields fs = .nil ↔ fs = .nil := by
      cases fs with
      | nil => simp [sortFields]
      | cons k' v' fs =>
        simp only [sortFields]
        obtain ⟨a, b, l, hins⟩ := insertField_ne_nil k' v' (sortFields fs)
        rw [hins]
        constructor
        · intro hc; exact absurd hc (by simp)
        · intro hc; exact absurd hc (by simp)
    rw [restLen_congr (sortFields fs) fs hnil ih]

mutual
/-- Recursive key-sorting preserves the `json.dumps` length (object entry order
affects only order, never length). -/
theorem sortJson_dumps_length : ∀ j : Json, (dumpsB (sortJson j)).length = (dumpsB j).length
  | .str s => rfl
  | .num n => rfl
  | .bool b => rfl
  | .null => rfl
  | .sig s => rfl
  | .hashv h => rfl
  | .encBlock e => rfl
  | .arr xs => by
    have h := sortJsonList_dumps_length xs
    simp [dumpsB, sortJson, h]
  | .obj fs => by
    have h := sortJsonFields_dumps_length fs
    simp only [sortJson, dumpsB]
    simp [sortFields_dumps_length (sortJsonFields fs), h]
/-- Elementwise sorting preserves the rendered length of array elements. -/
theorem sortJsonList_dumps_length :
    ∀ xs : JsonList, (dumpsList (sortJsonList xs)).length = (dumpsList xs).length
  | .nil => rfl
  | .cons x xs => by
    have h1 := sortJson_dumps_length x
    have h2 := sortJsonList_dumps_length xs
    cases xs with
    | nil => simpa [sortJsonList, dumpsList] using h1
    | cons y ys =>
      simp only [sortJsonList, dumpsList] at h2 ⊢
      simp [h1, h2]
/-- Elementwise sorting preserves the rendered length of object entries. -/
theorem sortJsonFields_dumps_length :
    ∀ fs : JsonFields, (dumpsFields (sortJsonFields fs)).length = (dumpsFields fs).length
  | .nil => rfl
  | .cons k v fs => by
    have h1 := sortJson_dumps_length v
    have h2 := sortJsonFields_dumps_length fs
    cases fs with
    | nil => simpa [sortJsonFields, dumpsFields] using h1
    | cons k' v' fs =>
      simp only [sortJsonFields, dumpsFields] at h2 ⊢
      simp [h1, h2]
end

/-- The canonical (`sort_keys=True`) serialization has exactly the length of the
insertion-order serialization the size check uses. -/
theorem dumps_sorted_length (j : Json) :
    (dumps true j).length = (dumps false j).length := by
  simp [dumps, sortJson_dumps_length]

/-- C3.  Size-dispatch boundary of `send_message`: whenever the send succeeds, if
the canonical (`sort_keys=True`) serialization of the signed envelope is exactly
1024 bytes the full envelope is handed inline to the ledger collaborator (and no
off-chain reference exists); if it is 1025 bytes or more, the envelope is stored
off-chain and the collaborator receives only the seven-field digest payload —
message id, sender, recipient, off-chain reference, content digest, timestamp and
neural-signature tag — never the inline payload.  (The code compares the
insertion-order dump against 1024; by `dumps_sorted_length` that length equals the
canonical one.) -/
theorem c3_size_dispatch (st : AgentState) (recipient : String)
    (recipientInfo : Option AgentInfo) (payload : Json) (encrypt : Bool)
    (priority : String) (env : SendEnv) (r : SendResult)
    (hok : send_message st recipient recipientInfo payload encrypt priority env = .ok r) :
    ((dumps true r.envelope).length = 1024 →
       r.metadata = r.envelope ∧ r.ipfsHash = none) ∧
    (1025 ≤ (dumps true r.envelope).length →
       ∃ h, r.ipfsHash = some h ∧
         r.metadata = .obj (.cons "id" (.str r.messageId)
           (.cons "from" (jsonOfOptStr st.address)
             (.cons "to" (.str recipient)
               (.cons "ipfs_hash" (.hashv h)
                 (.cons "message_hash" (.hashv r.messageHash)
                   (.cons "timestamp" (.str env.timestamp)
                     (.cons "neural_signature" (.str st.neuralSig) .nil)))))))) := by
  simp only [send_message] at hok
  repeat' split at hok
  all_goals try exact absurd hok (fun hh => Except.noConfusion hh)
  all_goals obtain rfl := Except.ok.inj hok
  · constructor
    · intro h1024
      rw [dumps_sorted_length] at h1024
      rename_i hgt
      simp only [SendResult.envelope] at h1024
      omega
    · intro _
      exact ⟨_, rfl, rfl⟩
  · constructor
    · intro _
      exact ⟨rfl, rfl⟩
    · intro h1025
      rw [dumps_sorted_length] at h1025
      rename_i hle
      simp only [SendResult.envelope] at h1025
      omega

set_option maxRecDepth 100000 in
/-- Witness for C3: at exactly 1024 canonical bytes the envelope goes inline with
no off-chain reference; at 1025 bytes only the digest payload is submitted. -/
theorem c3_size_dispatch_witness :
    ((dumps true c3ResInline.envelope).length = 1024 ∧
      c3ResInline.metadata = c3ResInline.envelope ∧ c3ResInline.ipfsHash = none) ∧
    (1025 ≤ (dumps true c3ResOff.envelope).length ∧
      ∃ h, c3ResOff.ipfsHash = some h ∧
        c3ResOff.metadata = .obj (.cons "id" (.str c3ResOff.messageId)
          (.cons "from" (jsonOfOptStr agentA.address)
            (.cons "to" (.str "0xec2")
              (.cons "ipfs_hash" (.hashv h)
                (.cons "message_hash" (.hashv c3ResOff.messageHash)
                  (.cons "timestamp" (.str sendEnvA.timestamp)
                    (.cons "neural_signature" (.str agentA.neuralSig) .nil)))))))) := by
  have hA := c3_size_dispatch agentA "0xec2" (some infoB) (.str c3FillInline) false
    "normal" sendEnvA c3ResInline rfl
  have hB := c3_size_dispatch agentA "0xec2" (some infoB) (.str c3FillOff) false
    "normal" sendEnvA c3ResOff rfl
  exact ⟨⟨by decide, hA.1 (by decide)⟩, ⟨by decide, hB.2 (by decide)⟩⟩

end AICube
